import Mathlib

/-!
Verification of the task execution orchestrator of `agentic-task-executor`
(backend). The definitions below are a shallow embedding of the Python
source under `backend/app`:

* `TaskStatus`, `SessionStatus` — `app/models/base.py`
* `startTask`, `completeTask`, `failTask`, `getPendingTasks` —
  `app/services/task_service.py` (the Supabase table is modelled as a list
  of task rows for one session; an `UPDATE ... WHERE id = x` is
  `setTaskRow`)
* `updateHeartbeat` — `app/services/execution_connection_service.py`
  (the table has at most one row per session, enforced by the upsert with
  `on_conflict="session_id"`, so the registry is a map from session id to
  an optional record)
* `runSingleTask` — the event-translation loop of `execute_single_task`
  in `app/agent/execution_graph.py`
* `artifactCreatorNode` — the `artifact_creator` node of the execution
  graph (`app/agent/execution_graph.py`); the two LLM calls inside it are
  environment inputs (the generated `TaskResult` text and the
  `ArtifactDecision`)
* `runOrchestrator` / `innerLoop` / `handleEscapedFault` — the
  `event_stream` generator of `app/api/execute.py`; the pause branches of
  that generator name the missing enum member `SessionStatus.PAUSED`, so
  `runOrchestrator`/`innerLoop` model the behaviour those branches encode
  (used to state the divergence, claim C1), while
  `runOrchestratorActual`/`innerLoopActual` model the control flow Python
  actually takes there (an `AttributeError` into the surrounding
  handlers)
* `repair` — the Interrupted-State Repair routine; this routine is
  specified (spec §4.2) but has no implementation under the provided
  sources, so it is modelled from the spec (see its doc comment).

Error values raised as `ValueError(f"...")` in Python are modelled
structurally (`TaskError.invalidTransition current expected` carries the
two status names that the source interpolates into the message).
-/

namespace AgenticExec

/-- Task status enum, from `app/models/base.py` (`TaskStatus`). -/
inductive TaskStatus
  | pending
  | inProgress
  | done
  | failed
deriving DecidableEq, Repr

/-- The string value of each `TaskStatus` member, as in the source enum. -/
def TaskStatus.value : TaskStatus → String
  | .pending => "pending"
  | .inProgress => "in_progress"
  | .done => "done"
  | .failed => "failed"

/-- Session status enum exactly as defined in `app/models/base.py`
(`SessionStatus`): it has only the three members below.  The orchestrator
in `app/api/execute.py` also refers to a member `PAUSED`, which this enum
does not define. -/
inductive SessionStatus
  | planning
  | executing
  | completed
deriving DecidableEq, Repr

/-- The string value of each `SessionStatus` member, as in the source enum. -/
def SessionStatus.value : SessionStatus → String
  | .planning => "planning"
  | .executing => "executing"
  | .completed => "completed"

/-- Look a `SessionStatus` member up by its string value (the reverse of
the enum's value mapping; yields `none` for a value no member carries). -/
def sessionStatusOfValue (v : String) : Option SessionStatus :=
  if v = "planning" then some .planning
  else if v = "executing" then some .executing
  else if v = "completed" then some .completed
  else none

/-- One row of the `tasks` table (fields used by the execution flow). -/
structure Task where
  id : Nat
  title : String
  description : String
  status : TaskStatus
  result : Option String
deriving DecidableEq, Repr

/-- The `tasks` table restricted to one session, as a list of rows. -/
abbrev TaskStore := List Task

/-- `SELECT * FROM tasks WHERE id = x` (at most one row; ids are unique). -/
def getTask (store : TaskStore) (id : Nat) : Option Task :=
  store.find? (fun t => t.id = id)

/-- `UPDATE tasks SET ... WHERE id = x`, applying `f` to the matching row. -/
def setTaskRow (store : TaskStore) (id : Nat) (f : Task → Task) : TaskStore :=
  store.map (fun t => if t.id = id then f t else t)

/-- The `ValueError`s raised by `TaskService`, modelled structurally: the
invalid-transition error carries the unexpected current status value and
the expected one, exactly the two pieces of information the source
interpolates into the message string. -/
inductive TaskError
  | notFound (id : Nat)
  | invalidTransition (current : String) (expected : String)
deriving DecidableEq, Repr

/-- A printable description of a `TaskError` (`str(e)` in the source). -/
def TaskError.describe : TaskError → String
  | .notFound id => "Task " ++ toString id ++ " not found"
  | .invalidTransition current expected =>
      "current status is " ++ current ++ ", expected " ++ expected

/-- `TaskService.start_task` (`app/services/task_service.py`): pending
tasks move to in_progress; a task already in_progress is returned as-is
with no update executed; any other status is an invalid transition. -/
def startTask (store : TaskStore) (id : Nat) :
    Except TaskError (Task × TaskStore) :=
  match getTask store id with
  | none => .error (.notFound id)
  | some task =>
    if task.status = TaskStatus.inProgress then
      .ok (task, store)
    else if task.status ≠ TaskStatus.pending then
      .error (.invalidTransition task.status.value "pending or in_progress")
    else
      .ok ({ task with status := TaskStatus.inProgress },
           setTaskRow store id (fun t => { t with status := TaskStatus.inProgress }))

/-- `TaskService.complete_task`: in_progress moves to done with the result
text; any other status is an invalid transition. -/
def completeTask (store : TaskStore) (id : Nat) (resultText : String) :
    Except TaskError (Task × TaskStore) :=
  match getTask store id with
  | none => .error (.notFound id)
  | some task =>
    if task.status ≠ TaskStatus.inProgress then
      .error (.invalidTransition task.status.value "in_progress")
    else
      .ok ({ task with status := TaskStatus.done, result := some resultText },
           setTaskRow store id
             (fun t => { t with status := TaskStatus.done, result := some resultText }))

/-- `TaskService.fail_task`: in_progress moves to failed with the error
text stored as the result; any other status is an invalid transition. -/
def failTask (store : TaskStore) (id : Nat) (error : String) :
    Except TaskError (Task × TaskStore) :=
  match getTask store id with
  | none => .error (.notFound id)
  | some task =>
    if task.status ≠ TaskStatus.inProgress then
      .error (.invalidTransition task.status.value "in_progress")
    else
      .ok ({ task with status := TaskStatus.failed, result := some error },
           setTaskRow store id
             (fun t => { t with status := TaskStatus.failed, result := some error }))

/-- `TaskService.get_pending_tasks`: the pending rows, in order. -/
def getPendingTasks (store : TaskStore) : List Task :=
  store.filter (fun t => t.status = TaskStatus.pending)

/-- `TaskService.get_resumable_tasks`: the in_progress and pending rows,
in order. -/
def getResumableTasks (store : TaskStore) : List Task :=
  store.filter
    (fun t => t.status = TaskStatus.inProgress ∨ t.status = TaskStatus.pending)

/-! ## Connection registry (`app/services/execution_connection_service.py`) -/

/-- One row of the `execution_connections` table.  Timestamps are modelled
as abstract instants (`Nat`). -/
structure ConnRecord where
  connectionId : Nat
  lastHeartbeat : Nat
  pauseRequested : Bool
  createdAt : Nat
deriving DecidableEq, Repr

/-- The `execution_connections` table: at most one row per session
(guaranteed by `register_connection`'s upsert with
`on_conflict="session_id"`), hence a map from session id to an optional
record. -/
abbrev ConnStore := Nat → Option ConnRecord

/-- `ExecutionConnectionService.update_heartbeat`: an
`UPDATE execution_connections SET last_heartbeat = now
WHERE session_id = sid AND connection_id = cid`; the returned flag is
whether any row matched (`len(result.data) > 0`). -/
def updateHeartbeat (store : ConnStore) (sid cid now : Nat) :
    ConnStore × Bool :=
  match store sid with
  | some r =>
      if r.connectionId = cid then
        (fun s => if s = sid then some { r with lastHeartbeat := now } else store s,
         true)
      else (store, false)
  | none => (store, false)

/-! ## Per-task workflow events (`execute_single_task`,
`app/agent/execution_graph.py`) -/

/-- The `created_artifact` info stored in graph state by the
`artifact_creator` node (id rendered as a string, name, type value). -/
structure CreatedArtifact where
  id : String
  name : String
  type : String
deriving DecidableEq, Repr

/-- The output dict of a graph node run, as read by
`execute_single_task`'s `on_chain_end` handling: `get("task_result", "")`,
`get("created_artifact")` and `get("final_reflection", "")`; a missing key
is `none`. -/
structure NodeOutput where
  taskResult : Option String
  createdArtifact : Option CreatedArtifact
  finalReflection : Option String
deriving DecidableEq, Repr

/-- The LangGraph stream events `execute_single_task` dispatches on
(`astream_events` v2), with the node name taken from
`metadata.langgraph_node`. -/
inductive GraphEvent
  | chatModelStream (node : String) (content : String)
  | toolStart (name : String) (input : String)
  | toolEnd (name : String) (output : String)
  | chainStart (node : String)
  | chainEnd (node : String) (output : NodeOutput)
deriving DecidableEq, Repr

/-- The typed events `execute_single_task` yields (the `{"type": ...}`
dicts of the workflow's stream). -/
inductive WfEvent
  | content (taskId : String) (text : String)
  | toolCall (taskId : String) (tool : String) (input : String)
  | toolResult (taskId : String) (tool : String) (output : String)
  | artifactAnalysisStart (taskId : String)
  | artifactCreated (taskId : String) (artifactId : String) (name : String)
      (artifactType : String)
  | artifactAnalysisComplete (taskId : String)
  | reflection (taskId : String) (text : String)
  | taskCompleted (taskId : String) (result : String)
  | errorEvent (taskId : String) (msg : String)
deriving DecidableEq, Repr

/-- Tool outputs longer than 500 characters are truncated with an
ellipsis marker before being put on the `tool_result` event. -/
def truncateOutput (s : String) : String :=
  if s.length > 500 then (s.take 500) ++ "..." else s

/-- One iteration of `execute_single_task`'s event loop.  The mutable
locals are `started` (`artifact_analysis_started`) and `tr`
(`task_result_from_artifact`); the result is their new values and the
events yielded for this graph event. -/
def stepSingleTask (taskId : String) (started : Bool) (tr : String) :
    GraphEvent → Bool × String × List WfEvent
  | .chatModelStream node content =>
      if node = "agent" ∧ content ≠ "" then
        (started, tr, [.content taskId content])
      else (started, tr, [])
  | .toolStart name input => (started, tr, [.toolCall taskId name input])
  | .toolEnd name output =>
      (started, tr, [.toolResult taskId name (truncateOutput output)])
  | .chainStart node =>
      if node = "artifact_creator" ∧ started = false then
        (true, tr, [.artifactAnalysisStart taskId])
      else (started, tr, [])
  | .chainEnd node out =>
      if node = "artifact_creator" then
        let tr2 := out.taskResult.getD ""
        match out.createdArtifact with
        | some a => (started, tr2, [.artifactCreated taskId a.id a.name a.type])
        | none => (started, tr2, [.artifactAnalysisComplete taskId])
      else if node = "reflect" then
        let refl := out.finalReflection.getD ""
        let reflEvents :=
          if refl ≠ "" then [WfEvent.reflection taskId refl] else []
        let doneEvents :=
          if tr ≠ "" then [WfEvent.taskCompleted taskId tr] else []
        (started, tr, reflEvents ++ doneEvents)
      else (started, tr, [])

/-- The event loop of `execute_single_task` over a finished stream of
graph events, accumulating the yielded workflow events in order. -/
def runSingleTaskFrom (taskId : String) (started : Bool) (tr : String) :
    List GraphEvent → List WfEvent
  | [] => []
  | e :: rest =>
      let (started2, tr2, out) := stepSingleTask taskId started tr e
      out ++ runSingleTaskFrom taskId started2 tr2 rest

/-- `execute_single_task`'s full event translation, from the initial
state (`artifact_analysis_started = False`,
`task_result_from_artifact = ""`). -/
def runSingleTask (taskId : String) (events : List GraphEvent) :
    List WfEvent :=
  runSingleTaskFrom taskId false "" events

/-! ## The `artifact_creator` node (`app/agent/execution_graph.py`) -/

/-- One row of the `artifacts` table (`app/services/artifact_service.py`). -/
structure ArtifactRow where
  id : Nat
  sessionId : Nat
  taskId : Option Nat
  name : String
  type : String
  content : String
deriving DecidableEq, Repr

/-- `ArtifactService.list_by_task`: the rows whose `task_id` matches. -/
def listByTask (store : List ArtifactRow) (taskId : Nat) : List ArtifactRow :=
  store.filter (fun a => a.taskId = some taskId)

/-- The structured `ArtifactDecision` output of the artifact LLM
(`should_create`, optional name, type and content). -/
structure ArtifactDecision where
  shouldCreate : Bool
  name : Option String
  artifactType : Option String
  content : Option String
deriving DecidableEq, Repr

/-- Python truthiness of an optional string: `None` and `""` are falsy. -/
def strTruthy : Option String → Bool
  | none => false
  | some s => s ≠ ""

/-- Python's `str.strip()` (with no argument): drop whitespace from both
ends of the string, modelled at the character-list level. -/
def pyStrip (s : String) : String :=
  ⟨((s.data.dropWhile Char.isWhitespace).reverse.dropWhile
      Char.isWhitespace).reverse⟩

/-- Python `x or default` for an optional string (`None` and `""` fall
back to the default). -/
def pyOrStr (x : Option String) (default : String) : String :=
  match x with
  | none => default
  | some s => if s = "" then default else s

/-- The dict returned by the `artifact_creator` node into graph state. -/
structure NodeResult where
  taskResult : String
  taskReflection : String
  createdArtifact : Option CreatedArtifact
deriving DecidableEq, Repr

/-- The `created_artifact` / `task_result` / `final_reflection` entries of
a `NodeResult`, as `execute_single_task` reads them from the
`on_chain_end` output of the `artifact_creator` node. -/
def NodeResult.toOutput (r : NodeResult) : NodeOutput :=
  { taskResult := some r.taskResult
    createdArtifact := r.createdArtifact
    finalReflection := none }

/-- The `artifact_creator` node of the execution graph.  Its two LLM calls
are environment inputs: `genResult`/`genReflection` are the structured
`TaskResult` produced from the conversation, and `decision` is the
structured `ArtifactDecision`.  If the generated result is empty or
whitespace-only the node returns immediately with no artifact; otherwise,
when the decision is to create and both name and content are truthy, it
inserts one artifact row (`artifact_service.create`) with type
`decision.artifact_type or "note"` and the current task's id.
The node performs no lookup of existing artifacts.  (The source's
`except` fallback around the insert, which returns `created_artifact =
None` when the insert itself faults, is not modelled: inserts here always
succeed.) -/
def artifactCreatorNode (store : List ArtifactRow) (nextId : Nat)
    (sessionId taskId : Nat) (genResult genReflection : String)
    (decision : ArtifactDecision) : NodeResult × List ArtifactRow :=
  if genResult = "" ∨ pyStrip genResult = "" then
    (⟨genResult, genReflection, none⟩, store)
  else if decision.shouldCreate ∧ strTruthy decision.name
      ∧ strTruthy decision.content then
    let nm := decision.name.getD ""
    let ct := decision.content.getD ""
    let ty := pyOrStr decision.artifactType "note"
    let row : ArtifactRow := ⟨nextId, sessionId, some taskId, nm, ty, ct⟩
    (⟨genResult, genReflection, some ⟨toString nextId, nm, ty⟩⟩,
     store ++ [row])
  else
    (⟨genResult, genReflection, none⟩, store)

/-! ## The orchestrator loop (`event_stream` in `app/api/execute.py`)

The liveness oracle `live` gives the result of the k-th call to
`check_connection_status` (a pair of `is_active` and the optional pause
reason).  The per-task workflow is an environment input as well: for the
i-th task of the batch, `wfs i` is the list of events the workflow's
stream delivers followed by the optional exception message it then raises
into the surrounding `async for`.

`session_service.update_status` writes the status value string to the
session row; the model records that string.  Note that the pause paths of
the source name `SessionStatus.PAUSED`, a member that `app/models/base.py`
does not define; the definitions in this section write the value
`"paused"` that this member would carry, i.e. they model the behaviour
the pause branches encode — the divergence is recorded by the theorem for
claim C1, and the `innerLoopActual`/`processTaskActual`/
`runOrchestratorActual` definitions further below model the control flow
Python actually takes through those branches (an `AttributeError` into
the surrounding handlers). -/

/-- Events of the orchestrator-level SSE stream. Workflow events are
forwarded wrapped in `wf`; `taskError` is an error event the orchestrator
itself constructs for a task; `streamError` is the session-level error
event of the outer `except Exception` handler (it has no task id). -/
inductive OrchEvent
  | connection (connectionId : Nat)
  | taskSelected (taskId : Nat)
  | wf (e : WfEvent)
  | taskError (taskId : Nat) (msg : String)
  | streamError (msg : String)
  | paused (reason : Option String)
  | done (total : Nat) (completedCount : Nat) (failedCount : Nat)
deriving DecidableEq, Repr

/-- The pending-tool-call counter update: `tool_call` increments,
`tool_result` decrements clamped at zero (`max(0, pending - 1)` is
truncated subtraction on `Nat`), everything else leaves it unchanged. -/
def pendingStep (pending : Nat) : WfEvent → Nat
  | .toolCall _ _ _ => pending + 1
  | .toolResult _ _ _ => pending - 1
  | _ => pending

/-- Tracking of the completion locals while forwarding one event:
`task_completed` records the result, `error` marks the task failed with
its message. -/
def trackCompletion (tr : Option String) (tf : Bool) (em : Option String) :
    WfEvent → Option String × Bool × Option String
  | .taskCompleted _ r => (some r, tf, em)
  | .errorEvent _ m => (tr, true, some m)
  | _ => (tr, tf, em)

/-- Result of the inner per-task event loop: either it paused after
consuming `consumed` events (having forwarded `forwarded`, which excludes
the event being processed when the pause hit), or it ran to the end of the
stream. `checkIdxAfter` is the liveness-oracle position after the loop. -/
inductive InnerOut
  | pausedAt (reason : Option String) (consumed : Nat)
      (forwarded : List WfEvent) (checkIdxAfter : Nat)
  | ranToEnd (forwarded : List WfEvent) (checkIdxAfter : Nat)
      (taskResult : Option String) (taskFailed : Bool) (errMsg : Option String)
deriving DecidableEq, Repr

/-- Account for the event processed at the head of an iteration: one more
event consumed, and the event itself forwarded (prepended to whatever the
rest of the loop yields). -/
def innerWrap (e : WfEvent) : InnerOut → InnerOut
  | .pausedAt r n fwd ck => .pausedAt r (n + 1) (e :: fwd) ck
  | .ranToEnd fwd ck a b c => .ranToEnd (e :: fwd) ck a b c

/-- The inner `async for` loop of `event_stream` (lines 198-260), taking
the pause branch as its text encodes it: for each workflow event, update
the pending counter; when it is zero, consult the liveness oracle and
pause if inactive (without forwarding the current event); otherwise track
completion state and forward the event.  The pause branch cannot run as
written in Python — it opens by evaluating the missing
`SessionStatus.PAUSED` (see C1) — so this definition captures the encoded
behaviour; `innerLoopActual` below captures the actual one, where that
branch raises `AttributeError` instead. -/
def innerLoop (live : Nat → Bool × Option String) (checkIdx pending : Nat)
    (tr : Option String) (tf : Bool) (em : Option String) :
    List WfEvent → InnerOut
  | [] => .ranToEnd [] checkIdx tr tf em
  | e :: rest =>
    if pendingStep pending e = 0 then
      if (live checkIdx).1 = false then
        .pausedAt (live checkIdx).2 1 [] (checkIdx + 1)
      else
        innerWrap e (innerLoop live (checkIdx + 1) (pendingStep pending e)
          (trackCompletion tr tf em e).1 (trackCompletion tr tf em e).2.1
          (trackCompletion tr tf em e).2.2 rest)
    else
      innerWrap e (innerLoop live checkIdx (pendingStep pending e)
        (trackCompletion tr tf em e).1 (trackCompletion tr tf em e).2.1
        (trackCompletion tr tf em e).2.2 rest)

/-- The orchestrator's mutable state while streaming one batch. -/
structure OrchState where
  store : TaskStore
  sessionStatus : String
  conn : Option Nat
  checkIdx : Nat
  completedCount : Nat
  failedCount : Nat
  prevResults : List (String × String)
  events : List OrchEvent
deriving DecidableEq, Repr

/-- Whether processing one task paused the stream (`return` out of the
generator) or control continues with the next task. -/
inductive StepResult
  | pauseRun (st : OrchState)
  | continueRun (st : OrchState)
deriving DecidableEq, Repr

/-- The task-update bookkeeping after the inner event loop
(`event_stream` lines 268-297): a failed task goes through `fail_task`
and bumps the failed counter, a successful one through `complete_task`
with the result (or its default), bumping the completed counter and
appending the in-batch context pair; a `ValueError` from either becomes a
task error event and the loop continues. -/
def finishTaskUpdate (t : Task) (tf : Bool) (em tr : Option String)
    (st : OrchState) : StepResult :=
  if tf then
    match failTask st.store t.id (pyOrStr em "Task execution failed") with
    | .ok (_, store3) =>
        .continueRun { st with
          store := store3
          failedCount := st.failedCount + 1 }
    | .error e =>
        .continueRun { st with
          events := st.events ++
            [.taskError t.id ("Failed to update task status: " ++ e.describe)] }
  else
    match completeTask st.store t.id (pyOrStr tr "Task completed") with
    | .ok (_, store3) =>
        .continueRun { st with
          store := store3
          completedCount := st.completedCount + 1
          prevResults := st.prevResults ++ [(t.title, pyOrStr tr "Task completed")] }
    | .error e =>
        .continueRun { st with
          events := st.events ++
            [.taskError t.id ("Failed to update task status: " ++ e.describe)] }

/-- Processing of one task of the batch (`event_stream` lines 140-297):
pre-task liveness check, `task_selected`, `start_task` (a `ValueError`
becomes a task error and the loop continues), the inner event loop, the
exception branch around it (a fault escaping the inner `async for` marks
the task failed with the fault's message and emits an error event), and
the final task update.  Like `innerLoop`, this takes the two pause
branches as the source encodes them; in Python both raise
`AttributeError` on the missing `SessionStatus.PAUSED` instead (see C1
and `processTaskActual` below). -/
def processTask (live : Nat → Bool × Option String)
    (wfEvents : List WfEvent) (wfFault : Option String)
    (t : Task) (st : OrchState) : StepResult :=
  if (live st.checkIdx).1 = false then
    .pauseRun { st with
      checkIdx := st.checkIdx + 1
      sessionStatus := "paused"
      events := st.events ++ [.paused (live st.checkIdx).2] }
  else
    let st1 : OrchState := { st with
      checkIdx := st.checkIdx + 1
      events := st.events ++ [.taskSelected t.id] }
    match startTask st1.store t.id with
    | .error e =>
        .continueRun { st1 with
          events := st1.events ++ [.taskError t.id e.describe]
          failedCount := st1.failedCount + 1 }
    | .ok (_, store2) =>
      match innerLoop live st1.checkIdx 0 none false none wfEvents with
      | .pausedAt reason _ fwd ck =>
          .pauseRun { st1 with
            store := store2
            checkIdx := ck
            sessionStatus := "paused"
            events := st1.events ++ fwd.map OrchEvent.wf ++ [.paused reason] }
      | .ranToEnd fwd ck tr tf em =>
        match wfFault with
        | some m =>
            finishTaskUpdate t true (some m) tr
              { st1 with
                store := store2
                checkIdx := ck
                events := st1.events ++ fwd.map OrchEvent.wf
                  ++ [.taskError t.id m] }
        | none =>
            finishTaskUpdate t tf em tr
              { st1 with
                store := store2
                checkIdx := ck
                events := st1.events ++ fwd.map OrchEvent.wf }

/-- Overall outcome of one orchestrator run. -/
inductive RunOutcome
  | completedRun
  | pausedRun
deriving DecidableEq, Repr

/-- Observable result of one orchestrator run: the streamed events in
order, the final task store, the session status value last written, the
connection record (if still present) and the two counters. -/
structure RunResult where
  outcome : RunOutcome
  events : List OrchEvent
  store : TaskStore
  sessionStatus : String
  conn : Option Nat
  completedCount : Nat
  failedCount : Nat
deriving DecidableEq, Repr

/-- The completion path (lines 299-314): session status `completed`,
connection record cleared, one `done` event with the summary. -/
def finishRun (total : Nat) (st : OrchState) : RunResult :=
  { outcome := .completedRun
    events := st.events ++ [.done total st.completedCount st.failedCount]
    store := st.store
    sessionStatus := "completed"
    conn := none
    completedCount := st.completedCount
    failedCount := st.failedCount }

/-- An early pause ends the stream with the state as the pausing step left
it (the connection record is not touched). -/
def pausedResult (st : OrchState) : RunResult :=
  { outcome := .pausedRun
    events := st.events
    store := st.store
    sessionStatus := st.sessionStatus
    conn := st.conn
    completedCount := st.completedCount
    failedCount := st.failedCount }

/-- The task loop: process the batch in order, stopping at the first
pause; with no early pause, the completion path runs. -/
def runTasks (live : Nat → Bool × Option String)
    (wfs : Nat → List WfEvent × Option String) (total : Nat) :
    List Task → Nat → OrchState → RunResult
  | [], _, st => finishRun total st
  | t :: rest, idx, st =>
    match processTask live (wfs idx).1 (wfs idx).2 t st with
    | .pauseRun st2 => pausedResult st2
    | .continueRun st2 => runTasks live wfs total rest (idx + 1) st2

/-- One full orchestrator run over a selected batch: the stream opens with
the `connection` event, the session is already `executing` and the fresh
connection record registered (lines 109-121). -/
def runOrchestrator (live : Nat → Bool × Option String)
    (wfs : Nat → List WfEvent × Option String)
    (store : TaskStore) (tasks : List Task) (connId : Nat) : RunResult :=
  runTasks live wfs tasks.length tasks 0
    { store := store
      sessionStatus := "executing"
      conn := some connId
      checkIdx := 0
      completedCount := 0
      failedCount := 0
      prevResults := []
      events := [.connection connId] }

/-- The faults that can escape the per-task handling into the outer
handlers of `event_stream` (lines 316-337): task cancellation
(`asyncio.CancelledError`), generator teardown (`GeneratorExit`), or any
other exception. -/
inductive EscapedFault
  | cancelledError
  | generatorExit
  | otherException (msg : String)
deriving DecidableEq, Repr

/-- The exception (if any) that leaves `event_stream` after an outer
handler ran: the `AttributeError` raised by evaluating the missing enum
member `SessionStatus.PAUSED`, or one of the original faults. -/
inductive StreamException
  | attributeErrorNoPaused
  | cancelledError
  | generatorExit
  | exception (msg : String)
deriving DecidableEq, Repr

/-- The exception a fault would propagate as, were it re-raised. -/
def EscapedFault.toException : EscapedFault → StreamException
  | .cancelledError => .cancelledError
  | .generatorExit => .generatorExit
  | .otherException m => .exception m

/-- What an outer handler actually does: the status value the session is
left in, the events persisted to the execution log, the events yielded,
and the exception (if any) that propagates out of the generator. -/
structure FaultOutcome where
  sessionStatus : String
  logged : List OrchEvent
  yielded : List OrchEvent
  propagated : Option StreamException
deriving DecidableEq, Repr

/-- The outer `except` handlers of `event_stream` (lines 316-337), given
the session status current when the fault escaped.  The `CancelledError`
and `GeneratorExit` handlers begin with
`update_status(session_id, SessionStatus.PAUSED)` (lines 321/329); the
argument `SessionStatus.PAUSED` does not exist
(`app/models/base.py` defines no such member), so evaluating it raises
`AttributeError` before the status write, before the paused log write
(lines 323/331) and before the `raise` (lines 324/332): the session
status is left unchanged, nothing is logged, and the `AttributeError`
propagates in place of the original fault.  Any other exception is
handled by the `except Exception` branch (lines 334-337): it persists and
yields an `error` event, leaves the session status untouched and does not
re-raise. -/
def handleEscapedFault (status : String) : EscapedFault → FaultOutcome
  | .cancelledError =>
      { sessionStatus := status
        logged := []
        yielded := []
        propagated := some .attributeErrorNoPaused }
  | .generatorExit =>
      { sessionStatus := status
        logged := []
        yielded := []
        propagated := some .attributeErrorNoPaused }
  | .otherException m =>
      { sessionStatus := status
        logged := [.streamError m]
        yielded := [.streamError m]
        propagated := none }

/-! ## The orchestrator's actual control flow through the pause paths

`innerLoop`/`processTask`/`runOrchestrator` above model the behaviour the
pause branches of `event_stream` encode — the status value and event that
lines 149-157 and 229-240 name.  The program cannot take those branches
as written: both begin by evaluating `SessionStatus.PAUSED`, a member the
enum in `app/models/base.py` does not define, so the attribute access
raises `AttributeError` there.  The definitions below model the control
flow the program actually takes through those branches:

* an inactive check inside the task's event loop (line 230) raises before
  anything is emitted; the exception is caught by the per-task
  `except Exception` (lines 262-266), which yields an `error` event for
  the task, marks it failed, and lets the batch continue;
* an inactive check before a task (line 149) raises outside the per-task
  try, reaching the outer `except Exception` (lines 334-337), which
  yields a session-level `error` event and ends the stream with the
  session status unchanged. -/

/-- `str` of the `AttributeError` raised by `SessionStatus.PAUSED`
(the source message carries quotes around the two names; quotes are
elided here). -/
def pausedAttributeErrorMsg : String :=
  "type object SessionStatus has no attribute PAUSED"

/-- Result of the actual inner per-task event loop: either the inactive
branch raised after consuming `consumed` events (having forwarded
`forwarded`, which excludes the event being processed when it raised), or
the loop ran to the end of the stream. -/
inductive InnerOutActual
  | raisedAt (consumed : Nat) (forwarded : List WfEvent) (checkIdxAfter : Nat)
  | ranToEnd (forwarded : List WfEvent) (checkIdxAfter : Nat)
      (taskResult : Option String) (taskFailed : Bool) (errMsg : Option String)
deriving DecidableEq, Repr

/-- Account for the event processed at the head of an iteration of the
actual loop. -/
def innerWrapActual (e : WfEvent) : InnerOutActual → InnerOutActual
  | .raisedAt n fwd ck => .raisedAt (n + 1) (e :: fwd) ck
  | .ranToEnd fwd ck a b c => .ranToEnd (e :: fwd) ck a b c

/-- The actual inner `async for` loop: identical to `innerLoop` except
that an inactive deferred check raises (line 230 evaluates the missing
`SessionStatus.PAUSED`) instead of pausing; nothing is emitted for the
event being processed. -/
def innerLoopActual (live : Nat → Bool × Option String) (checkIdx pending : Nat)
    (tr : Option String) (tf : Bool) (em : Option String) :
    List WfEvent → InnerOutActual
  | [] => .ranToEnd [] checkIdx tr tf em
  | e :: rest =>
    if pendingStep pending e = 0 then
      if (live checkIdx).1 = false then
        .raisedAt 1 [] (checkIdx + 1)
      else
        innerWrapActual e (innerLoopActual live (checkIdx + 1) (pendingStep pending e)
          (trackCompletion tr tf em e).1 (trackCompletion tr tf em e).2.1
          (trackCompletion tr tf em e).2.2 rest)
    else
      innerWrapActual e (innerLoopActual live checkIdx (pendingStep pending e)
        (trackCompletion tr tf em e).1 (trackCompletion tr tf em e).2.1
        (trackCompletion tr tf em e).2.2 rest)

/-- Whether processing one task lets the loop continue or ends the stream
through the outer `except Exception` handler. -/
inductive StepResultActual
  | continueRun (st : OrchState)
  | abortRun (st : OrchState)
deriving DecidableEq, Repr

/-- Actual processing of one task: the pre-task inactive branch raises
`AttributeError` (line 149) outside the per-task try, reaching the outer
`except Exception` handler, which yields a session-level `error` event
and ends the stream with the session status unchanged; an inactive check
inside the event loop raises into the per-task handler (lines 262-266),
which yields a task `error` event and marks the task failed, and the
batch continues through the usual task update. -/
def processTaskActual (live : Nat → Bool × Option String)
    (wfEvents : List WfEvent) (wfFault : Option String)
    (t : Task) (st : OrchState) : StepResultActual :=
  if (live st.checkIdx).1 = false then
    .abortRun { st with
      checkIdx := st.checkIdx + 1
      events := st.events ++ [.streamError pausedAttributeErrorMsg] }
  else
    let st1 : OrchState := { st with
      checkIdx := st.checkIdx + 1
      events := st.events ++ [.taskSelected t.id] }
    match startTask st1.store t.id with
    | .error e =>
        .continueRun { st1 with
          events := st1.events ++ [.taskError t.id e.describe]
          failedCount := st1.failedCount + 1 }
    | .ok (_, store2) =>
      match innerLoopActual live st1.checkIdx 0 none false none wfEvents with
      | .raisedAt _ fwd ck =>
        match finishTaskUpdate t true (some pausedAttributeErrorMsg) none
            { st1 with
              store := store2
              checkIdx := ck
              events := st1.events ++ fwd.map OrchEvent.wf
                ++ [.taskError t.id pausedAttributeErrorMsg] } with
        | .continueRun st2 => .continueRun st2
        | .pauseRun st2 => .abortRun st2
      | .ranToEnd fwd ck tr tf em =>
        let upd : StepResult :=
          match wfFault with
          | some m =>
              finishTaskUpdate t true (some m) tr
                { st1 with
                  store := store2
                  checkIdx := ck
                  events := st1.events ++ fwd.map OrchEvent.wf
                    ++ [.taskError t.id m] }
          | none =>
              finishTaskUpdate t tf em tr
                { st1 with
                  store := store2
                  checkIdx := ck
                  events := st1.events ++ fwd.map OrchEvent.wf }
        match upd with
        | .continueRun st2 => .continueRun st2
        | .pauseRun st2 => .abortRun st2

/-- Overall outcome of one actual orchestrator run: either the batch ran
to the completion path, or the stream was ended by the outer exception
handler. -/
inductive RunOutcomeActual
  | completedRun
  | abortedRun
deriving DecidableEq, Repr

/-- Observable result of one actual orchestrator run. -/
structure RunResultActual where
  outcome : RunOutcomeActual
  events : List OrchEvent
  store : TaskStore
  sessionStatus : String
  conn : Option Nat
  completedCount : Nat
  failedCount : Nat
deriving DecidableEq, Repr

/-- The completion path (lines 299-314), unchanged: `COMPLETED` exists,
so this path runs as written. -/
def finishRunActual (total : Nat) (st : OrchState) : RunResultActual :=
  { outcome := .completedRun
    events := st.events ++ [.done total st.completedCount st.failedCount]
    store := st.store
    sessionStatus := "completed"
    conn := none
    completedCount := st.completedCount
    failedCount := st.failedCount }

/-- The stream ends through the outer exception handler: session status
and connection record are left as they were. -/
def abortedResult (st : OrchState) : RunResultActual :=
  { outcome := .abortedRun
    events := st.events
    store := st.store
    sessionStatus := st.sessionStatus
    conn := st.conn
    completedCount := st.completedCount
    failedCount := st.failedCount }

/-- The actual task loop. -/
def runTasksActual (live : Nat → Bool × Option String)
    (wfs : Nat → List WfEvent × Option String) (total : Nat) :
    List Task → Nat → OrchState → RunResultActual
  | [], _, st => finishRunActual total st
  | t :: rest, idx, st =>
    match processTaskActual live (wfs idx).1 (wfs idx).2 t st with
    | .abortRun st2 => abortedResult st2
    | .continueRun st2 => runTasksActual live wfs total rest (idx + 1) st2

/-- One full actual orchestrator run over a selected batch. -/
def runOrchestratorActual (live : Nat → Bool × Option String)
    (wfs : Nat → List WfEvent × Option String)
    (store : TaskStore) (tasks : List Task) (connId : Nat) : RunResultActual :=
  runTasksActual live wfs tasks.length tasks 0
    { store := store
      sessionStatus := "executing"
      conn := some connId
      checkIdx := 0
      completedCount := 0
      failedCount := 0
      prevResults := []
      events := [.connection connId] }

/-! ## Interrupted-State Repair

Modelled from the spec: the Interrupted-State Repair routine of §4.2 has
no implementation among the provided backend sources (only the comment at
`app/api/execute.py` line 216 mentions the broken state it would repair),
so the definitions below follow the spec's algorithm text: load the
persisted conversation; scan backward for the most recent agent turn
carrying pending tool invocations; collect that turn's invocation
identifiers; subtract those that already have a matching tool-result turn
after it; for each remaining orphan, append a synthesized tool-result
turn with a fixed sentinel content tagged with the identifier and the
requested tool name. -/

/-- One tool invocation requested in an agent turn: an opaque identifier
and the requested tool's name. -/
structure Invocation where
  id : String
  name : String
deriving DecidableEq, Repr

/-- One turn of a per-task conversation: human input, an agent turn
carrying zero or more tool invocations, or a tool-result turn answering
one invocation identifier. -/
inductive Turn
  | human (content : String)
  | agent (content : String) (invocations : List Invocation)
  | toolResult (invocationId : String) (toolName : String) (content : String)
deriving DecidableEq, Repr

/-- A persisted per-task conversation, oldest turn first. -/
abbrev Conversation := List Turn

/-- The contribution of a single turn to the backward scan: an agent turn
carrying invocations is a hit at position zero. -/
def headAgentInvocations : Turn → Option (Nat × List Invocation)
  | .agent _ invs => if invs = [] then none else some (0, invs)
  | _ => none

/-- Backward scan for the most recent agent turn that carries tool
invocations; yields its position (from the start) and its invocations. -/
def lastAgentWithInvocations : Conversation → Option (Nat × List Invocation)
  | [] => none
  | t :: rest =>
    match lastAgentWithInvocations rest with
    | some (i, invs) => some (i + 1, invs)
    | none => headAgentInvocations t

/-- The invocation identifiers answered by tool-result turns of a
conversation. -/
def resultIds (c : Conversation) : List String :=
  c.filterMap (fun t =>
    match t with
    | .toolResult invocationId _ _ => some invocationId
    | _ => none)

/-- The invocation identifiers answered by tool-result turns appearing
after position `i`. -/
def resultIdsAfter (c : Conversation) (i : Nat) : List String :=
  resultIds (c.drop (i + 1))

/-- The fixed sentinel content of a synthesized tool-result turn. -/
def sentinelText : String := "interrupted - retry"

/-- The synthesized tool-result turn for one orphaned invocation. -/
def synthTurn (inv : Invocation) : Turn :=
  .toolResult inv.id inv.name sentinelText

/-- The orphaned invocations: those of the most recent agent turn with
invocations that have no matching tool-result turn after it. -/
def orphanInvocations (c : Conversation) : List Invocation :=
  match lastAgentWithInvocations c with
  | none => []
  | some (i, invs) =>
      invs.filter (fun inv => decide (inv.id ∉ resultIdsAfter c i))

/-- The repair routine: append one synthesized tool-result turn per
orphaned invocation. -/
def repair (c : Conversation) : Conversation :=
  c ++ (orphanInvocations c).map synthTurn

/-- The turns a repair run appends to the conversation. -/
def synthesizedTurns (c : Conversation) : List Turn :=
  (repair c).drop c.length

/-- The unmatched invocation identifiers of the agent turn at position
`i`: those with no matching tool-result turn after it. -/
def unmatchedAt (c : Conversation) (i : Nat) : List String :=
  match c.get? i with
  | some (.agent _ invs) =>
      (invs.map Invocation.id).filter
        (fun invocationId => decide (invocationId ∉ resultIdsAfter c i))
  | _ => []

/-- A conversation is valid to resume when no agent turn has tool
invocations without matching results. -/
def validToResume (c : Conversation) : Bool :=
  (List.range c.length).all (fun i => decide (unmatchedAt c i = []))

/-- The reachable-state invariant of persisted per-task conversations:
the workflow only proceeds past an agent turn once all its invocations
are answered, so unmatched invocations can exist only in the most recent
agent turn that carries invocations. -/
def brokenOnlyAtLast (c : Conversation) : Bool :=
  (List.range c.length).all (fun i =>
    match lastAgentWithInvocations c with
    | some (j, _) => decide (i = j ∨ unmatchedAt c i = [])
    | none => decide (unmatchedAt c i = []))

/-! ## Signature of `execute_single_task` versus its call site

Static facts about the source used by claim C5: the parameter list of
`async def execute_single_task` (`app/agent/execution_graph.py` lines
467-473), the positional arguments `event_stream` passes to it
(`app/api/execute.py` lines 198-205), the fields of the `ExecutionState`
TypedDict (`app/agent/state.py`) and the keys `execute_single_task`
initializes in `initial_state`. -/

/-- Parameter names of `execute_single_task`, in order; only
`previous_results` has a default. -/
def executeSingleTaskParams : List String :=
  ["graph", "session_id", "task", "config", "previous_results"]

/-- Number of parameters of `execute_single_task` without a default. -/
def executeSingleTaskRequiredParams : Nat := 4

/-- The expressions `event_stream` passes positionally when calling
`execute_single_task`, in order. -/
def executeSingleTaskCallArgs : List String :=
  ["graph", "session_id", "task_dict", "config", "completed_task_results",
   "execution_start_time"]

/-- Whether a Python call that passes `args` positional arguments binds
against a signature with `total` parameters of which `required` lack
defaults (no varargs): it must supply at least the required ones and at
most all of them, else the call raises `TypeError`. -/
def positionalBindOk (required total args : Nat) : Bool :=
  decide (required ≤ args) && decide (args ≤ total)

/-- Fields of the `ExecutionState` TypedDict (`app/agent/state.py`). -/
def executionStateFields : List String :=
  ["messages", "session_id", "current_task_id", "tasks", "artifacts",
   "task_result", "created_artifact", "is_complete", "execution_start_time"]

/-- The keys `execute_single_task` sets in `initial_state`
(`app/agent/execution_graph.py` lines 513-524). -/
def initialStateKeys : List String :=
  ["messages", "session_id", "current_task_id", "tasks", "artifacts",
   "task_result", "task_reflection", "created_artifact", "final_reflection",
   "is_complete"]

/-! ## Event predicates and counting helpers -/

/-- Whether an orchestrator event is the terminal `done` summary event. -/
def isDoneEvent : OrchEvent → Bool
  | .done _ _ _ => true
  | _ => false

/-- Whether an orchestrator event is a `paused` event. -/
def isPausedEvent : OrchEvent → Bool
  | .paused _ => true
  | _ => false

/-- Whether an orchestrator event is a forwarded `tool_result` event. -/
def isForwardedToolResult : OrchEvent → Bool
  | .wf (.toolResult _ _ _) => true
  | _ => false

/-- Whether an orchestrator event is a forwarded `tool_call` event. -/
def isForwardedToolCall : OrchEvent → Bool
  | .wf (.toolCall _ _ _) => true
  | _ => false

/-- The pending-tool-call counter after processing a list of workflow
events starting from `p0`, with the clamped decrement of the source. -/
def clampedPending (p0 : Nat) (es : List WfEvent) : Nat :=
  es.foldl pendingStep p0

/-- Whether a workflow event is a `tool_call`. -/
def isToolCallEv : WfEvent → Bool
  | .toolCall _ _ _ => true
  | _ => false

/-- Whether a workflow event is a `tool_result`. -/
def isToolResultEv : WfEvent → Bool
  | .toolResult _ _ _ => true
  | _ => false

/-- Number of `tool_call` events in a workflow event list. -/
def countToolCalls (es : List WfEvent) : Nat :=
  es.countP isToolCallEv

/-- Number of `tool_result` events in a workflow event list. -/
def countToolResults (es : List WfEvent) : Nat :=
  es.countP isToolResultEv

/-- A workflow event stream is well nested when no prefix carries more
`tool_result` events than `tool_call` events (every result answers an
earlier call). -/
def wellNested (es : List WfEvent) : Bool :=
  (List.range (es.length + 1)).all
    (fun k => decide (countToolResults (es.take k) ≤ countToolCalls (es.take k)))

/-! ## Concrete inputs used by counterexamples and witnesses -/

/-- A registry with one record for session 1, connection id 7. -/
def connRecordA : ConnRecord := ⟨7, 0, false, 0⟩

/-- The registry holding `connRecordA` for session 1 and nothing else. -/
def connStoreA : ConnStore := fun s => if s = 1 then some connRecordA else none

/-- A task currently in progress, for the C4 witness. -/
def taskInProgA : Task := ⟨1, "Research", "", TaskStatus.inProgress, none⟩

/-- A one-row task store holding `taskInProgA`. -/
def taskStoreA : TaskStore := [taskInProgA]

/-- A single pending task for the orchestrator examples. -/
def pendingTaskA : Task := ⟨1, "T1", "", TaskStatus.pending, none⟩

/-- A liveness oracle that reports inactive from the very first check. -/
def liveNever : Nat → Bool × Option String :=
  fun _ => (false, some "client_disconnected")

/-- A liveness oracle that is active on the first check and inactive from
the second check on. -/
def liveFirstOnly : Nat → Bool × Option String :=
  fun k => if k = 0 then (true, none) else (false, some "client_disconnected")

/-- A liveness oracle that always reports active. -/
def liveAlways : Nat → Bool × Option String := fun _ => (true, none)

/-- A workflow environment delivering no events and no fault. -/
def wfsEmpty : Nat → List WfEvent × Option String := fun _ => ([], none)

/-- The workflow event stream of the C2 counterexample: one tool call and
its result, with the liveness check turning inactive at the deferred
check right after the result returns the pending count to zero. -/
def c2WfStream : List WfEvent :=
  [.toolCall "1" "web_search" "q", .toolResult "1" "web_search" "out"]

/-- Workflow environment delivering `c2WfStream` for every task. -/
def c2Wfs : Nat → List WfEvent × Option String := fun _ => (c2WfStream, none)

/-- An orchestrator state mid-run over `taskStoreA`, for evaluating the
task-update bookkeeping at a concrete input. -/
def orchStA : OrchState :=
  { store := taskStoreA
    sessionStatus := "executing"
    conn := some 5
    checkIdx := 0
    completedCount := 0
    failedCount := 0
    prevResults := []
    events := [] }

/-- Two pending tasks for the C9 witness batch. -/
def c9Tasks : List Task :=
  [⟨1, "A", "", TaskStatus.pending, none⟩, ⟨2, "B", "", TaskStatus.pending, none⟩]

/-- Workflow environment for the C9 witness: each task's stream ends in a
`task_completed` event and raises no fault. -/
def c9Wfs : Nat → List WfEvent × Option String :=
  fun i => ([.taskCompleted (toString (i + 1)) "ok"], none)

/-- Graph-event stream of a task whose generated result text is the empty
string: the `artifact_creator` node ran (its output carries
`task_result = ""` and no created artifact) and the `reflect` node
finished with some reflection text. -/
def emptyResultGraphRun : List GraphEvent :=
  [.chainStart "artifact_creator",
   .chainEnd "artifact_creator" ⟨some "", none, none⟩,
   .chainEnd "reflect" ⟨none, none, some "All done"⟩]

/-- An artifact store where the agent already created an artifact for
task 5 through the `create_artifact` tool. -/
def c8Store : List ArtifactRow :=
  [⟨1, 9, some 5, "Tool-made artifact", "note", "body"⟩]

/-- An artifact decision that asks to create an artifact. -/
def c8Decision : ArtifactDecision :=
  ⟨true, some "Summary of findings", some "note", some "text"⟩

/-- Scenario E conversation: the last agent turn carries two invocations,
one of which already has a matching result. -/
def convE : Conversation :=
  [.human "do the task",
   .agent "working" [⟨"a", "web_search"⟩, ⟨"b", "calculator"⟩],
   .toolResult "a" "web_search" "ok"]

/-! # Theorems -/

/-- C10: for every registry, session and connection id, `update_heartbeat`
modifies only the `last_heartbeat` timestamp of a record whose
`connection_id` matches; it returns `false` with the registry unchanged
when the session has no record or the supplied connection id does not
match; it never creates a record, and it never changes the
`pause_requested` flag or the connection identifier. -/
theorem c10_update_heartbeat_frame (store : ConnStore) (sid cid now : Nat) :
    ((updateHeartbeat store sid cid now).2 = true ↔
        ∃ r, store sid = some r ∧ r.connectionId = cid)
    ∧ ((updateHeartbeat store sid cid now).2 = false →
        (updateHeartbeat store sid cid now).1 = store)
    ∧ (∀ s, s ≠ sid → (updateHeartbeat store sid cid now).1 s = store s)
    ∧ (store sid = none → (updateHeartbeat store sid cid now).1 sid = none)
    ∧ (∀ r, store sid = some r → r.connectionId = cid →
        (updateHeartbeat store sid cid now).1 sid =
          some { r with lastHeartbeat := now })
    ∧ (∀ r r2, store sid = some r →
        (updateHeartbeat store sid cid now).1 sid = some r2 →
        r2.connectionId = r.connectionId ∧
          r2.pauseRequested = r.pauseRequested ∧ r2.createdAt = r.createdAt) := by
  rcases h : store sid with _ | r
  · have he : updateHeartbeat store sid cid now = (store, false) := by
      unfold updateHeartbeat
      rw [h]
    rw [he]
    refine ⟨by simp, fun _ => rfl, fun s _ => rfl, fun _ => h, ?_, ?_⟩
    · intro r2 h2 _
      exact absurd h2 (by simp)
    · intro r1 r2 h1 _
      exact absurd h1 (by simp)
  · by_cases hc : r.connectionId = cid
    · have he : updateHeartbeat store sid cid now =
          (fun s => if s = sid then some { r with lastHeartbeat := now }
                    else store s, true) := by
        unfold updateHeartbeat
        rw [h]
        simp [hc]
      have hflag : (updateHeartbeat store sid cid now).2 = true := by
        rw [he]
      have hframe : ∀ s, s ≠ sid →
          (updateHeartbeat store sid cid now).1 s = store s := by
        intro s hs
        rw [he]
        simp [hs]
      have hval : (updateHeartbeat store sid cid now).1 sid
          = some { r with lastHeartbeat := now } := by
        rw [he]
        simp
      refine ⟨iff_of_true hflag ⟨r, rfl, hc⟩, ?_, hframe, ?_, ?_, ?_⟩
      · intro hf
        exact absurd (hflag.symm.trans hf) (by simp)
      · intro h0
        exact absurd h0 (by simp)
      · intro r2 h2 _
        injection h2 with e
        subst e
        exact hval
      · intro r1 r2 h1 h2
        injection h1 with e1
        subst e1
        rw [hval] at h2
        injection h2 with e2
        subst e2
        exact ⟨rfl, rfl, rfl⟩
    · have he : updateHeartbeat store sid cid now = (store, false) := by
        unfold updateHeartbeat
        rw [h]
        simp [hc]
      have hflag : (updateHeartbeat store sid cid now).2 = false := by
        rw [he]
      have hunch : (updateHeartbeat store sid cid now).1 = store := by
        rw [he]
      refine ⟨?_, fun _ => hunch, fun s _ => by rw [hunch], ?_, ?_, ?_⟩
      · constructor
        · intro hf
          exact absurd (hflag.symm.trans hf) (by simp)
        · rintro ⟨r2, h2, hc2⟩
          injection h2 with e
          subst e
          exact absurd hc2 hc
      · intro h0
        exact absurd h0 (by simp)
      · intro r2 h2 hc2
        injection h2 with e
        subst e
        exact absurd hc2 hc
      · intro r1 r2 h1 h2
        injection h1 with e1
        subst e1
        rw [hunch, h] at h2
        injection h2 with e2
        subst e2
        exact ⟨rfl, rfl, rfl⟩

/-- Witness for C10 at a concrete registry: the heartbeat for the matching
connection id is accepted, and other sessions are untouched. -/
theorem c10_witness :
    (updateHeartbeat connStoreA 1 7 100).2 = true ∧
      (updateHeartbeat connStoreA 1 7 100).1 2 = connStoreA 2 := by
  constructor
  · exact (c10_update_heartbeat_frame connStoreA 1 7 100).1.mpr
      ⟨connRecordA, rfl, rfl⟩
  · exact (c10_update_heartbeat_frame connStoreA 1 7 100).2.2.1 2 (by decide)

/-- C4: for every stored task, the transitions achievable through
`start_task`, `complete_task` and `fail_task` follow exactly
`pending → in_progress → {done, failed}`: `complete_task` and `fail_task`
raise the distinguishable invalid-transition error (naming the unexpected
status and the expected one) whenever the status is not `in_progress`,
`start_task` raises it when the status is `done` or `failed`, and
`start_task` on a task already `in_progress` returns the task unchanged
with no error and no store write. -/
theorem c4_task_transitions (store : TaskStore) (id : Nat) (t : Task)
    (h : getTask store id = some t) :
    (t.status = TaskStatus.inProgress → startTask store id = .ok (t, store))
    ∧ (t.status = TaskStatus.pending →
        startTask store id =
          .ok ({ t with status := TaskStatus.inProgress },
            setTaskRow store id (fun u => { u with status := TaskStatus.inProgress })))
    ∧ (t.status = TaskStatus.done ∨ t.status = TaskStatus.failed →
        startTask store id =
          .error (.invalidTransition t.status.value "pending or in_progress"))
    ∧ (∀ r, t.status = TaskStatus.inProgress →
        completeTask store id r =
          .ok ({ t with status := TaskStatus.done, result := some r },
            setTaskRow store id
              (fun u => { u with status := TaskStatus.done, result := some r })))
    ∧ (∀ r, t.status ≠ TaskStatus.inProgress →
        completeTask store id r =
          .error (.invalidTransition t.status.value "in_progress"))
    ∧ (∀ r, t.status = TaskStatus.inProgress →
        failTask store id r =
          .ok ({ t with status := TaskStatus.failed, result := some r },
            setTaskRow store id
              (fun u => { u with status := TaskStatus.failed, result := some r })))
    ∧ (∀ r, t.status ≠ TaskStatus.inProgress →
        failTask store id r =
          .error (.invalidTransition t.status.value "in_progress")) := by
  unfold startTask completeTask failTask
  rw [h]
  rcases t with ⟨tid, title, descr, status, result⟩
  cases status <;> simp [TaskStatus.value]

/-- Witness for C4 at a concrete store: starting an in-progress task is a
no-op that returns it unchanged, and completing it stores the result. -/
theorem c4_witness :
    startTask taskStoreA 1 = .ok (taskInProgA, taskStoreA) ∧
      completeTask taskStoreA 1 "found it" =
        .ok ({ taskInProgA with status := TaskStatus.done, result := some "found it" },
          setTaskRow taskStoreA 1
            (fun u => { u with status := TaskStatus.done, result := some "found it" })) := by
  constructor
  · exact (c4_task_transitions taskStoreA 1 taskInProgA (by decide)).1 rfl
  · exact (c4_task_transitions taskStoreA 1 taskInProgA (by decide)).2.2.2.1 "found it" rfl

/-- C3: the claim requires that a cancellation or generator-teardown
fault escaping the per-task try block transitions the session to `paused`
and is re-raised.  The handlers at `execute.py` lines 316-332 encode
exactly that, but each begins by evaluating `SessionStatus.PAUSED`, a
member the enum does not define, so an `AttributeError` is raised before
any status write, log line or re-raise.  Consequently: for every session
status and every escaping fault, (i) the two cancellation/teardown
branches produce no status change, no log and no yielded event, and
propagate the `AttributeError` instead of the original fault; (ii) any
other exception is swallowed by the outer `except Exception` branch after
a session-level `error` event; (iii) the session status is never changed
by any escaping fault, so a session that was `executing` stays
`executing` — it never becomes `paused`; and (iv) the exception that
propagates is never the original fault. -/
theorem c3_faults_never_pause (status m : String) :
    handleEscapedFault status EscapedFault.cancelledError
      = { sessionStatus := status, logged := [], yielded := [],
          propagated := some StreamException.attributeErrorNoPaused }
    ∧ handleEscapedFault status EscapedFault.generatorExit
      = { sessionStatus := status, logged := [], yielded := [],
          propagated := some StreamException.attributeErrorNoPaused }
    ∧ handleEscapedFault status (EscapedFault.otherException m)
      = { sessionStatus := status, logged := [OrchEvent.streamError m],
          yielded := [OrchEvent.streamError m], propagated := none }
    ∧ (∀ f : EscapedFault, (handleEscapedFault status f).sessionStatus = status)
    ∧ (∀ f : EscapedFault,
        (handleEscapedFault status f).propagated ≠ some f.toException)
    ∧ (handleEscapedFault "executing" EscapedFault.cancelledError).sessionStatus
        = "executing" := by
  refine ⟨rfl, rfl, rfl, ?_, ?_, rfl⟩
  · intro f; cases f <;> rfl
  · intro f; cases f <;> simp [handleEscapedFault, EscapedFault.toException]

/-- C5: the orchestrator establishes the current-time string once per run
and passes the same value on every task's call, but `execute_single_task`
does not accept it: the call site passes six positional arguments against
a five-parameter signature, so the binding fails (`TypeError` on every
task) and the string never reaches the workflow — consistently, the
`ExecutionState` TypedDict declares an `execution_start_time` field that
`execute_single_task` never initializes. -/
theorem c5_current_time_signature_mismatch :
    executeSingleTaskCallArgs.length = 6
    ∧ executeSingleTaskParams.length = 5
    ∧ positionalBindOk executeSingleTaskRequiredParams
        executeSingleTaskParams.length executeSingleTaskCallArgs.length = false
    ∧ "execution_start_time" ∈ executionStateFields
    ∧ "execution_start_time" ∉ initialStateKeys := by
  decide

/-- C8 counterexample: when the agent has already created an artifact for
task 5 via the `create_artifact` tool and the decision step also decides
to create one, the `artifact_creator` node creates a second artifact for
the same task — it performs no existing-artifact check, so the task ends
with two artifacts, refuting "at most one artifact per task, existing
artifact wins, no duplicate". -/
theorem c8_counterexample :
    (listByTask c8Store 5).length = 1
    ∧ (listByTask
        (artifactCreatorNode c8Store 2 9 5 "Found things" "ok" c8Decision).2
        5).length = 2
    ∧ (artifactCreatorNode c8Store 2 9 5 "Found things" "ok"
        c8Decision).1.createdArtifact ≠ none := by
  decide

/-- C8 as amended: the `artifact_creator` node never consults the
existing artifacts — its output and the rows it appends are independent
of the store's prior contents — and it appends at most one artifact row
per run; consequently, when an artifact for the task already exists, a
positive decision still creates another one. -/
theorem c8_no_existing_artifact_check (store : List ArtifactRow)
    (nextId sid tid : Nat) (res refl : String) (dec : ArtifactDecision) :
    (artifactCreatorNode store nextId sid tid res refl dec).1
      = (artifactCreatorNode [] nextId sid tid res refl dec).1
    ∧ (artifactCreatorNode store nextId sid tid res refl dec).2
      = store ++ (artifactCreatorNode [] nextId sid tid res refl dec).2
    ∧ (artifactCreatorNode [] nextId sid tid res refl dec).2.length ≤ 1 := by
  unfold artifactCreatorNode
  by_cases h1 : res = "" ∨ pyStrip res = ""
  · simp [h1]
  · by_cases h2 : dec.shouldCreate ∧ strTruthy dec.name ∧ strTruthy dec.content
    · simp [h1, h2]
    · simp [h1, h2]

/-- C6 counterexample: for a task whose generated result text is the
empty string, the workflow still emits the artifact-related events
`artifact_analysis_start` and `artifact_analysis_complete` (the
`artifact_creator` node runs, its start and end fire), and the terminal
`task_completed` event does not fire at all (its emission is guarded by
the result being non-empty) — refuting both halves of the claim. -/
theorem c6_counterexample :
    WfEvent.artifactAnalysisStart "t1" ∈ runSingleTask "t1" emptyResultGraphRun
    ∧ WfEvent.artifactAnalysisComplete "t1" ∈ runSingleTask "t1" emptyResultGraphRun
    ∧ ∀ r, WfEvent.taskCompleted "t1" r ∉ runSingleTask "t1" emptyResultGraphRun := by
  have heval : runSingleTask "t1" emptyResultGraphRun =
      [.artifactAnalysisStart "t1", .artifactAnalysisComplete "t1",
       .reflection "t1" "All done"] := by decide
  rw [heval]
  refine ⟨by simp, by simp, ?_⟩
  intro r hr
  simp only [List.mem_cons, List.not_mem_nil] at hr
  rcases hr with h | h | h | h <;> exact absurd h (by simp)

/-- C6 as amended: for a task whose generated result text is empty or
whitespace-only, the `artifact_creator` node skips the artifact-decision
step — it creates nothing and leaves the artifact store untouched — but
the workflow still emits `artifact_analysis_start` and
`artifact_analysis_complete` for the task; the terminal `task_completed`
event fires exactly when the result is non-empty, so a whitespace-only
result is still carried by a `task_completed` event while an empty one
suppresses it; and for a running task the orchestrator's success update
then stores the default result text `"Task completed"` (the empty result
falls through `or` to the default). -/
theorem c6_skip_artifact_events_and_default_completion
    (store : List ArtifactRow) (nextId sid tid : Nat)
    (res reflText : String) (dec : ArtifactDecision)
    (tid2 : String) (rr : NodeOutput)
    (hres : res = "" ∨ pyStrip res = "") :
    (artifactCreatorNode store nextId sid tid res reflText dec).2 = store
    ∧ (artifactCreatorNode store nextId sid tid res reflText dec).1.createdArtifact
        = none
    ∧ runSingleTask tid2
        [.chainStart "artifact_creator",
         .chainEnd "artifact_creator"
           (artifactCreatorNode store nextId sid tid res reflText dec).1.toOutput,
         .chainEnd "reflect" rr]
      = [.artifactAnalysisStart tid2, .artifactAnalysisComplete tid2]
        ++ (if rr.finalReflection.getD "" ≠ ""
            then [WfEvent.reflection tid2 (rr.finalReflection.getD "")]
            else [])
        ++ (if res ≠ "" then [WfEvent.taskCompleted tid2 res] else [])
    ∧ (∀ (st : OrchState) (t u : Task) (em : Option String),
        getTask st.store t.id = some u → u.status = TaskStatus.inProgress →
        finishTaskUpdate t false em none st
          = StepResult.continueRun { st with
              store := setTaskRow st.store t.id
                (fun x => { x with status := TaskStatus.done,
                                   result := some "Task completed" })
              completedCount := st.completedCount + 1
              prevResults := st.prevResults ++ [(t.title, "Task completed")] }) := by
  have hnode : artifactCreatorNode store nextId sid tid res reflText dec
      = (⟨res, reflText, none⟩, store) := by
    unfold artifactCreatorNode
    rcases hres with h | h <;> simp [h]
  refine ⟨by rw [hnode], by rw [hnode], ?_, ?_⟩
  · rw [hnode]
    by_cases hr : rr.finalReflection.getD "" = "" <;>
      by_cases h0 : res = "" <;>
        simp [runSingleTask, runSingleTaskFrom, stepSingleTask,
          NodeResult.toOutput, hr, h0]
  · intro st t u em hget hst
    have hc : completeTask st.store t.id (pyOrStr none "Task completed")
        = Except.ok ({ u with status := TaskStatus.done,
                              result := some "Task completed" },
            setTaskRow st.store t.id
              (fun x => { x with status := TaskStatus.done,
                                 result := some "Task completed" })) := by
      unfold completeTask
      rw [hget]
      simp [hst, pyOrStr]
    unfold finishTaskUpdate
    rw [hc]
    rfl

/-- Witness for the C6 amendment, at the whitespace-only result `" "`
(node skips, store untouched, no artifact) and, through the success
update of the task loop at an in-progress task, the default result text
stored with the task marked done. -/
theorem c6_skip_witness :
    ((" " : String) = "" ∨ pyStrip " " = "")
    ∧ (artifactCreatorNode c8Store 2 9 5 " " "r" c8Decision).2 = c8Store
    ∧ (artifactCreatorNode c8Store 2 9 5 " " "r" c8Decision).1.createdArtifact
        = none
    ∧ finishTaskUpdate taskInProgA false none none orchStA
        = StepResult.continueRun { orchStA with
            store := setTaskRow taskStoreA 1
              (fun x => { x with status := TaskStatus.done,
                                 result := some "Task completed" })
            completedCount := 1
            prevResults := [("Research", "Task completed")] } := by
  have h := c6_skip_artifact_events_and_default_completion c8Store 2 9 5
    " " "r" c8Decision "t1" ⟨none, none, none⟩ (Or.inr (by decide))
  exact ⟨Or.inr (by decide), h.1, h.2.1,
    h.2.2.2 orchStA taskInProgA taskInProgA none (by decide) rfl⟩

/-- C1: the claim requires the orchestrator to transition the session to
`paused`, one of four session statuses.  The behaviour the orchestrator
code encodes does match the claim — evaluated on a batch whose first
liveness check reports inactive, the run writes status value `"paused"`,
emits exactly one `paused` event carrying the reason, and starts no task
(no `task_selected` event, store untouched) — but the `SessionStatus`
enum the code must go through to write that status defines only three
members, none with value `"paused"`: the attribute `SessionStatus.PAUSED`
that `execute.py` accesses does not exist, so in Python the path raises
`AttributeError` instead of pausing.  This theorem records both sides of
that divergence. -/
theorem c1_pause_transition_requires_missing_enum_member :
    (∀ s : SessionStatus, s.value ≠ "paused")
    ∧ sessionStatusOfValue "paused" = none
    ∧ (runOrchestrator liveNever wfsEmpty [pendingTaskA] [pendingTaskA] 5).sessionStatus
        = "paused"
    ∧ (runOrchestrator liveNever wfsEmpty [pendingTaskA] [pendingTaskA] 5).events
        = [.connection 5, .paused (some "client_disconnected")]
    ∧ (runOrchestrator liveNever wfsEmpty [pendingTaskA] [pendingTaskA] 5).events.countP
        isPausedEvent = 1
    ∧ (runOrchestrator liveNever wfsEmpty [pendingTaskA] [pendingTaskA] 5).store
        = [pendingTaskA]
    ∧ (runOrchestrator liveNever wfsEmpty [pendingTaskA] [pendingTaskA] 5).outcome
        = RunOutcome.pausedRun := by
  refine ⟨fun s => ?_, by decide, by decide, by decide, by decide, by decide, by decide⟩
  cases s <;> decide

/-- C2: the claim says that while the pending tool-invocation count is
positive no liveness check runs and the orchestrator cannot pause, the
check being deferred until the count returns to zero.  The deferral is
real — on a `tool_call` followed by its `tool_result`, no check runs
between them and exactly one deferred check fires when the `tool_result`
returns the counter to zero (the loop below makes one liveness call,
advancing the check index from 1 to 2, with the clamped counter zero at
that point) — but the pause the claim continues into cannot happen: the
deferred check's branch (`execute.py` line 230) evaluates
`SessionStatus.PAUSED` before emitting anything, raising `AttributeError`
into the per-task handler.  On the stream where that check reports
inactive, the actual run emits no `paused` event at all; the `tool_call`
was forwarded but the closing `tool_result` is dropped, the task is
marked failed with the `AttributeError` text as its result, and the batch
continues to the completion path (`done` event, session `completed`). -/
theorem c2_inactive_check_raises_not_pauses :
    (runOrchestratorActual liveFirstOnly c2Wfs [pendingTaskA] [pendingTaskA] 5).events
      = [.connection 5, .taskSelected 1,
         .wf (.toolCall "1" "web_search" "q"),
         .taskError 1 pausedAttributeErrorMsg,
         .done 1 0 1]
    ∧ (runOrchestratorActual liveFirstOnly c2Wfs [pendingTaskA] [pendingTaskA] 5).events.countP
        isPausedEvent = 0
    ∧ (runOrchestratorActual liveFirstOnly c2Wfs [pendingTaskA] [pendingTaskA] 5).events.countP
        isForwardedToolResult = 0
    ∧ (runOrchestratorActual liveFirstOnly c2Wfs [pendingTaskA] [pendingTaskA] 5).events.countP
        isForwardedToolCall = 1
    ∧ (runOrchestratorActual liveFirstOnly c2Wfs [pendingTaskA] [pendingTaskA] 5).sessionStatus
        = "completed"
    ∧ (runOrchestratorActual liveFirstOnly c2Wfs [pendingTaskA] [pendingTaskA] 5).outcome
        = RunOutcomeActual.completedRun
    ∧ getTask
        (runOrchestratorActual liveFirstOnly c2Wfs [pendingTaskA] [pendingTaskA] 5).store 1
      = some ⟨1, "T1", "", TaskStatus.failed, some pausedAttributeErrorMsg⟩
    ∧ innerLoopActual liveFirstOnly 1 0 none false none c2WfStream
        = .raisedAt 2 [.toolCall "1" "web_search" "q"] 2
    ∧ clampedPending 0 (c2WfStream.take 2) = 0
    ∧ c2WfStream.take 1 = [.toolCall "1" "web_search" "q"] := by
  decide

/-- Forwarded workflow events are never the `done` summary event. -/
lemma countP_map_wf_done (l : List WfEvent) :
    (l.map OrchEvent.wf).countP isDoneEvent = 0 := by
  induction l with
  | nil => rfl
  | cons e rest ih => simp [List.countP_cons, isDoneEvent, ih]

/-- The task-update bookkeeping always continues the loop and preserves
session status, connection record and the `done` event count. -/
lemma finishTaskUpdate_spec (t : Task) (tf : Bool) (em tr : Option String)
    (st : OrchState) :
    ∀ st2, finishTaskUpdate t tf em tr st = .continueRun st2 →
      st2.sessionStatus = st.sessionStatus ∧ st2.conn = st.conn ∧
        st2.events.countP isDoneEvent = st.events.countP isDoneEvent := by
  intro st2 h
  simp only [finishTaskUpdate] at h
  split at h
  · split at h
    · injection h with h2
      subst h2
      exact ⟨rfl, rfl, rfl⟩
    · injection h with h2
      subst h2
      refine ⟨rfl, rfl, ?_⟩
      simp [List.countP_append, List.countP_cons, isDoneEvent]
  · split at h
    · injection h with h2
      subst h2
      exact ⟨rfl, rfl, rfl⟩
    · injection h with h2
      subst h2
      refine ⟨rfl, rfl, ?_⟩
      simp [List.countP_append, List.countP_cons, isDoneEvent]

/-- The task-update bookkeeping never pauses the run. -/
lemma finishTaskUpdate_ne_pause (t : Task) (tf : Bool) (em tr : Option String)
    (st : OrchState) :
    ∀ st2, finishTaskUpdate t tf em tr st ≠ .pauseRun st2 := by
  intro st2 h
  simp only [finishTaskUpdate] at h
  split at h
  · split at h
    · exact absurd h (by simp)
    · exact absurd h (by simp)
  · split at h
    · exact absurd h (by simp)
    · exact absurd h (by simp)

/-- Processing one task preserves the connection record and adds no
`done` event; the session status is preserved when the loop continues and
set to `paused` when it pauses. -/
lemma processTask_spec (live : Nat → Bool × Option String)
    (wfEvents : List WfEvent) (wfFault : Option String) (t : Task)
    (st : OrchState) :
    (∀ st2, processTask live wfEvents wfFault t st = .continueRun st2 →
      st2.sessionStatus = st.sessionStatus ∧ st2.conn = st.conn ∧
        st2.events.countP isDoneEvent = st.events.countP isDoneEvent)
    ∧ (∀ st2, processTask live wfEvents wfFault t st = .pauseRun st2 →
      st2.conn = st.conn ∧ st2.sessionStatus = "paused" ∧
        st2.events.countP isDoneEvent = st.events.countP isDoneEvent) := by
  constructor
  · intro st2 h
    simp only [processTask] at h
    split at h
    · exact absurd h (by simp)
    · split at h
      · injection h with h2
        subst h2
        refine ⟨rfl, rfl, ?_⟩
        simp [List.countP_append, List.countP_cons, isDoneEvent]
      · split at h
        · exact absurd h (by simp)
        · split at h
          · obtain ⟨ha, hb, hcnt⟩ := finishTaskUpdate_spec _ _ _ _ _ st2 h
            refine ⟨ha, hb, ?_⟩
            rw [hcnt]
            simp [List.countP_append, List.countP_cons, isDoneEvent,
              countP_map_wf_done]
          · obtain ⟨ha, hb, hcnt⟩ := finishTaskUpdate_spec _ _ _ _ _ st2 h
            refine ⟨ha, hb, ?_⟩
            rw [hcnt]
            simp [List.countP_append, List.countP_cons, isDoneEvent,
              countP_map_wf_done]
  · intro st2 h
    simp only [processTask] at h
    split at h
    · injection h with h2
      subst h2
      refine ⟨rfl, rfl, ?_⟩
      simp [List.countP_append, List.countP_cons, isDoneEvent]
    · split at h
      · exact absurd h (by simp)
      · split at h
        · injection h with h2
          subst h2
          refine ⟨rfl, rfl, ?_⟩
          simp [List.countP_append, List.countP_cons, isDoneEvent,
            countP_map_wf_done]
        · split at h
          · exact absurd h (finishTaskUpdate_ne_pause _ _ _ _ _ st2)
          · exact absurd h (finishTaskUpdate_ne_pause _ _ _ _ _ st2)

/-- Invariants of the task loop: with no early pause, the loop ends with
session status `completed`, the connection record cleared and exactly one
more `done` event (placed last, carrying the summary); at an early pause
the connection record is left as it was and no `done` event is added. -/
lemma runTasks_spec (live : Nat → Bool × Option String)
    (wfs : Nat → List WfEvent × Option String) (total : Nat) :
    ∀ (tasks : List Task) (idx : Nat) (st : OrchState),
      ((runTasks live wfs total tasks idx st).outcome = RunOutcome.completedRun →
        (runTasks live wfs total tasks idx st).sessionStatus = "completed"
        ∧ (runTasks live wfs total tasks idx st).conn = none
        ∧ (runTasks live wfs total tasks idx st).events.countP isDoneEvent
            = st.events.countP isDoneEvent + 1
        ∧ (runTasks live wfs total tasks idx st).events.getLast?
            = some (.done total (runTasks live wfs total tasks idx st).completedCount
                (runTasks live wfs total tasks idx st).failedCount))
      ∧ ((runTasks live wfs total tasks idx st).outcome = RunOutcome.pausedRun →
        (runTasks live wfs total tasks idx st).conn = st.conn
        ∧ (runTasks live wfs total tasks idx st).sessionStatus = "paused"
        ∧ (runTasks live wfs total tasks idx st).events.countP isDoneEvent
            = st.events.countP isDoneEvent) := by
  intro tasks
  induction tasks with
  | nil =>
    intro idx st
    constructor
    · intro _
      refine ⟨rfl, rfl, ?_, ?_⟩
      · simp [runTasks, finishRun, List.countP_append, List.countP_cons,
          isDoneEvent]
      · simp only [runTasks, finishRun]
        exact List.getLast?_concat _
    · intro h
      simp [runTasks, finishRun] at h
  | cons t rest ih =>
    intro idx st
    rcases hp : processTask live (wfs idx).1 (wfs idx).2 t st with st2 | st2
    · have hps := (processTask_spec live (wfs idx).1 (wfs idx).2 t st).2 st2 hp
      have hrun : runTasks live wfs total (t :: rest) idx st = pausedResult st2 := by
        rw [runTasks, hp]
      rw [hrun]
      constructor
      · intro h
        simp [pausedResult] at h
      · intro _
        exact ⟨hps.1, hps.2.1, hps.2.2⟩
    · have hps := (processTask_spec live (wfs idx).1 (wfs idx).2 t st).1 st2 hp
      have hrun : runTasks live wfs total (t :: rest) idx st
          = runTasks live wfs total rest (idx + 1) st2 := by
        rw [runTasks, hp]
      rw [hrun]
      obtain ⟨ihc, ihp⟩ := ih (idx + 1) st2
      constructor
      · intro h
        obtain ⟨h1, h2, h3, h4⟩ := ihc h
        exact ⟨h1, h2, by rw [h3, hps.2.2], h4⟩
      · intro h
        obtain ⟨h1, h2, h3⟩ := ihp h
        exact ⟨h1.trans hps.2.1, h2, by rw [h3, hps.2.2]⟩

/-- C9: if the orchestrator processes all selected tasks without an early
pause, it transitions the session to `completed`, clears the connection
record, and emits exactly one terminal `done` event whose summary carries
`total` equal to the number of selected tasks together with the run's
completed and failed counters; conversely, on an early pause the
connection record is still present (it is deleted only when the batch ran
to the end) and no `done` event is emitted. -/
theorem c9_completion_summary (live : Nat → Bool × Option String)
    (wfs : Nat → List WfEvent × Option String) (store : TaskStore)
    (tasks : List Task) (connId : Nat) :
    ((runOrchestrator live wfs store tasks connId).outcome = RunOutcome.completedRun →
      (runOrchestrator live wfs store tasks connId).sessionStatus = "completed"
      ∧ (runOrchestrator live wfs store tasks connId).conn = none
      ∧ (runOrchestrator live wfs store tasks connId).events.countP isDoneEvent = 1
      ∧ (runOrchestrator live wfs store tasks connId).events.getLast?
          = some (.done tasks.length
              (runOrchestrator live wfs store tasks connId).completedCount
              (runOrchestrator live wfs store tasks connId).failedCount))
    ∧ ((runOrchestrator live wfs store tasks connId).outcome = RunOutcome.pausedRun →
      (runOrchestrator live wfs store tasks connId).conn = some connId
      ∧ (runOrchestrator live wfs store tasks connId).events.countP isDoneEvent
          = 0) := by
  have hspec := runTasks_spec live wfs tasks.length tasks 0
    { store := store
      sessionStatus := "executing"
      conn := some connId
      checkIdx := 0
      completedCount := 0
      failedCount := 0
      prevResults := []
      events := [.connection connId] }
  have hzero : List.countP isDoneEvent [OrchEvent.connection connId] = 0 := by
    simp [List.countP_cons, isDoneEvent]
  simp only [runOrchestrator]
  constructor
  · intro h
    obtain ⟨h1, h2, h3, h4⟩ := hspec.1 h
    refine ⟨h1, h2, ?_, h4⟩
    rw [h3, hzero]
  · intro h
    obtain ⟨h1, h2, h3⟩ := hspec.2 h
    refine ⟨h1, ?_⟩
    rw [h3, hzero]

/-- Witness for C9 at a concrete batch of two pending tasks with an
always-active liveness oracle: the run completes, the session is
`completed`, the record is cleared and exactly one `done` event is
emitted. -/
theorem c9_completion_summary_witness :
    (runOrchestrator liveAlways c9Wfs c9Tasks c9Tasks 5).sessionStatus = "completed"
    ∧ (runOrchestrator liveAlways c9Wfs c9Tasks c9Tasks 5).conn = none
    ∧ (runOrchestrator liveAlways c9Wfs c9Tasks c9Tasks 5).events.countP
        isDoneEvent = 1 := by
  have h := (c9_completion_summary liveAlways c9Wfs c9Tasks c9Tasks 5).1 (by decide)
  exact ⟨h.1, h.2.1, h.2.2.1⟩

/-- The backward scan returns a valid position: an agent turn with that
(nonempty) invocation list sits at the returned index. -/
lemma lastAgent_spec :
    ∀ (c : Conversation) (j : Nat) (invs : List Invocation),
      lastAgentWithInvocations c = some (j, invs) →
      j < c.length ∧ invs ≠ [] ∧
        ∃ content, c.get? j = some (.agent content invs) := by
  intro c
  induction c with
  | nil =>
    intro j invs h
    simp [lastAgentWithInvocations] at h
  | cons t rest ih =>
    intro j invs h
    rw [lastAgentWithInvocations] at h
    rcases hrest : lastAgentWithInvocations rest with _ | ⟨i, invs0⟩
    · rw [hrest] at h
      have h2 : headAgentInvocations t = some (j, invs) := h
      cases t with
      | human content => simp [headAgentInvocations] at h2
      | toolResult a b cc => simp [headAgentInvocations] at h2
      | agent content invs1 =>
        rw [headAgentInvocations] at h2
        by_cases hinv : invs1 = []
        · rw [if_pos hinv] at h2
          simp at h2
        · rw [if_neg hinv] at h2
          injection h2 with h3
          injection h3 with hj hi
          subst hj
          subst hi
          exact ⟨by simp, hinv, content, rfl⟩
    · rw [hrest] at h
      have h2 : some (i + 1, invs0) = some (j, invs) := h
      injection h2 with h3
      injection h3 with hj hi
      subst hj
      subst hi
      obtain ⟨hlen, hne, content, hget⟩ := ih i invs0 hrest
      refine ⟨?_, hne, content, hget⟩
      simp only [List.length_cons]
      omega

/-- Appending turns that contain no agent-with-invocations turn does not
change the result of the backward scan. -/
lemma lastAgent_append_none :
    ∀ (l1 l2 : Conversation), lastAgentWithInvocations l2 = none →
      lastAgentWithInvocations (l1 ++ l2) = lastAgentWithInvocations l1 := by
  intro l1 l2 h
  induction l1 with
  | nil =>
    simp only [List.nil_append, h]
    rfl
  | cons t rest ih =>
    have hl : lastAgentWithInvocations ((t :: rest) ++ l2)
        = match lastAgentWithInvocations (rest ++ l2) with
          | some (i, invs) => some (i + 1, invs)
          | none => headAgentInvocations t := by
      rw [List.cons_append, lastAgentWithInvocations]
    rw [hl, ih, lastAgentWithInvocations]

/-- Synthesized tool-result turns contain no agent turn. -/
lemma lastAgent_synth_none (invs : List Invocation) :
    lastAgentWithInvocations (invs.map synthTurn) = none := by
  induction invs with
  | nil => rfl
  | cons v rest ih =>
    rw [List.map_cons, lastAgentWithInvocations, ih]
    rfl

/-- `resultIds` distributes over append. -/
lemma resultIds_append (l1 l2 : Conversation) :
    resultIds (l1 ++ l2) = resultIds l1 ++ resultIds l2 := by
  simp [resultIds, List.filterMap_append]

/-- The result identifiers of a block of synthesized turns are exactly
the synthesized invocation identifiers. -/
lemma resultIds_map_synth (l : List Invocation) :
    resultIds (l.map synthTurn) = l.map Invocation.id := by
  induction l with
  | nil => rfl
  | cons v rest ih =>
    simp [resultIds, synthTurn, List.filterMap_cons] at ih ⊢
    exact ih

/-- For a position inside the original conversation, appending turns adds
their result identifiers to the matching set. -/
lemma resultIdsAfter_append (c ext : Conversation) (i : Nat)
    (h : i < c.length) :
    resultIdsAfter (c ++ ext) i = resultIdsAfter c i ++ resultIds ext := by
  unfold resultIdsAfter
  rw [List.drop_append_of_le_length (by omega)]
  exact resultIds_append _ _

/-- The turns a repair run appends are the synthesized results of the
orphaned invocations. -/
lemma synthesizedTurns_eq (c : Conversation) :
    synthesizedTurns c = (orphanInvocations c).map synthTurn := by
  unfold synthesizedTurns repair
  exact List.drop_left _ _

/-- When the backward scan finds nothing, no agent turn of the
conversation carries invocations. -/
lemma lastAgent_none_spec :
    ∀ (c : Conversation), lastAgentWithInvocations c = none →
      ∀ i content invs, c.get? i = some (.agent content invs) → invs = [] := by
  intro c
  induction c with
  | nil =>
    intro h i content invs hg
    simp at hg
  | cons t rest ih =>
    intro h i content invs hg
    rw [lastAgentWithInvocations] at h
    rcases hrest : lastAgentWithInvocations rest with _ | ⟨i0, invs0⟩
    · rw [hrest] at h
      have h2 : headAgentInvocations t = none := h
      cases i with
      | zero =>
        injection hg with ht
        subst ht
        rw [headAgentInvocations] at h2
        by_cases hinv : invs = []
        · exact hinv
        · rw [if_neg hinv] at h2
          exact absurd h2 (by simp)
      | succ i0 =>
        exact ih hrest i0 content invs hg
    · rw [hrest] at h
      have h2 : some (i0 + 1, invs0) = (none : Option (Nat × List Invocation)) := h
      exact absurd h2 (by simp)

/-- C7 (spec-modelled: the repair routine is absent from the provided
sources and is modelled from spec §4.2): for every persisted per-task
conversation satisfying the reachable-state invariant (unmatched
invocations occur only in the most recent agent turn carrying
invocations), after the repair routine runs the conversation is valid to
resume — no agent turn has tool invocations without matching results; the
routine only synthesizes results for invocation identifiers that have no
existing matching result (partially-answered batches are repaired
minimally); and running it a second time in a row appends no further
turns. -/
theorem c7_repair_guarantee (c : Conversation)
    (h : brokenOnlyAtLast c = true) :
    validToResume (repair c) = true
    ∧ (∀ v : Invocation, synthTurn v ∈ synthesizedTurns c →
        ∃ j invs, lastAgentWithInvocations c = some (j, invs)
          ∧ v ∈ invs ∧ v.id ∉ resultIdsAfter c j)
    ∧ repair (repair c) = repair c := by
  rcases hL : lastAgentWithInvocations c with _ | ⟨j, invs⟩
  · have horph : orphanInvocations c = [] := by
      unfold orphanInvocations
      rw [hL]
    have hrep : repair c = c := by
      unfold repair
      rw [horph]
      simp
    refine ⟨?_, ?_, ?_⟩
    · rw [hrep]
      apply List.all_eq_true.mpr
      intro i hi
      simp only [decide_eq_true_eq]
      unfold unmatchedAt
      rcases hg : c.get? i with _ | t
      · rfl
      · cases t with
        | human cnt => rfl
        | toolResult a b cc => rfl
        | agent cnt invs1 =>
          have hnil : invs1 = [] := lastAgent_none_spec c hL i cnt invs1 hg
          subst hnil
          rfl
    · intro v hv
      rw [synthesizedTurns_eq, horph] at hv
      simp at hv
    · rw [hrep, hrep]
  · obtain ⟨hjlen, hinvne, content, hget⟩ := lastAgent_spec c j invs hL
    have horph : orphanInvocations c
        = invs.filter (fun inv => decide (inv.id ∉ resultIdsAfter c j)) := by
      unfold orphanInvocations
      rw [hL]
    have hrep : repair c = c ++
        (invs.filter (fun inv => decide (inv.id ∉ resultIdsAfter c j))).map
          synthTurn := by
      unfold repair
      rw [horph]
    have hextnone : lastAgentWithInvocations
        ((invs.filter (fun inv => decide (inv.id ∉ resultIdsAfter c j))).map
          synthTurn) = none := lastAgent_synth_none _
    have hLrep : lastAgentWithInvocations (repair c) = some (j, invs) := by
      rw [hrep, lastAgent_append_none _ _ hextnone, hL]
    have hresAfter : resultIdsAfter (repair c) j
        = resultIdsAfter c j ++
          (invs.filter (fun inv => decide (inv.id ∉ resultIdsAfter c j))).map
            Invocation.id := by
      rw [hrep, resultIdsAfter_append c _ j hjlen, resultIds_map_synth]
    refine ⟨?_, ?_, ?_⟩
    · apply List.all_eq_true.mpr
      intro i hi
      rw [List.mem_range] at hi
      simp only [decide_eq_true_eq]
      by_cases hic : i < c.length
      · unfold unmatchedAt
        have hgeti : (repair c).get? i = c.get? i := by
          rw [hrep]
          exact List.get?_append hic
        rw [hgeti]
        rcases hg : c.get? i with _ | t
        · rfl
        · cases t with
          | human cnt => rfl
          | toolResult a b cc => rfl
          | agent cnt invs1 =>
            by_cases hij : i = j
            · subst hij
              rw [hget] at hg
              injection hg with hg2
              injection hg2 with hcnt hinvs
              subst hinvs
              apply List.filter_eq_nil_iff.mpr
              intro x hx
              simp only [decide_eq_true_eq, not_not]
              rw [hresAfter, List.mem_append]
              obtain ⟨w, hw, hwx⟩ := List.mem_map.mp hx
              by_cases hmem : x ∈ resultIdsAfter c i
              · exact Or.inl hmem
              · right
                apply List.mem_map.mpr
                refine ⟨w, ?_, hwx⟩
                apply List.mem_filter.mpr
                refine ⟨hw, ?_⟩
                rw [hwx]
                simp [hmem]
            · have hall := List.all_eq_true.mp h i (List.mem_range.mpr hic)
              simp only [hL, decide_eq_true_eq] at hall
              have hbase : unmatchedAt c i = [] := hall.resolve_left hij
              unfold unmatchedAt at hbase
              rw [hg] at hbase
              apply List.filter_eq_nil_iff.mpr
              intro x hx
              have hxc := List.filter_eq_nil_iff.mp hbase x hx
              simp only [decide_eq_true_eq, not_not] at hxc ⊢
              rw [hrep, resultIdsAfter_append c _ i hic, List.mem_append]
              exact Or.inl hxc
      · unfold unmatchedAt
        have hgeti : (repair c).get? i
            = ((invs.filter (fun inv => decide (inv.id ∉ resultIdsAfter c j))).map
                synthTurn).get? (i - c.length) := by
          rw [hrep]
          exact List.get?_append_right (by omega)
        rw [hgeti]
        rcases hg : ((invs.filter
            (fun inv => decide (inv.id ∉ resultIdsAfter c j))).map
              synthTurn).get? (i - c.length) with _ | t
        · rfl
        · have htmem := List.get?_mem hg
          obtain ⟨w, hwmem, hwt⟩ := List.mem_map.mp htmem
          rw [← hwt]
          rfl
    · intro v hv
      rw [synthesizedTurns_eq, horph] at hv
      obtain ⟨w, hw, hwv⟩ := List.mem_map.mp hv
      obtain ⟨hwmem, hwdec⟩ := List.mem_filter.mp hw
      have hids : w.id = v.id ∧ w.name = v.name := by
        unfold synthTurn at hwv
        injection hwv with h1 h2 h3
        exact ⟨h1, h2⟩
      have hwv2 : w = v := by
        rcases w with ⟨wi, wn⟩
        rcases v with ⟨vi, vn⟩
        obtain ⟨e1, e2⟩ := hids
        simp only at e1 e2
        subst e1
        subst e2
        rfl
      have hnotin : w.id ∉ resultIdsAfter c j := of_decide_eq_true hwdec
      rw [hids.1] at hnotin
      exact ⟨j, invs, rfl, hwv2 ▸ hwmem, hnotin⟩
    · have horph2 : orphanInvocations (repair c) = [] := by
        unfold orphanInvocations
        rw [hLrep]
        apply List.filter_eq_nil_iff.mpr
        intro inv hinv
        simp only [decide_eq_true_eq, not_not]
        rw [hresAfter, List.mem_append]
        by_cases hmem : inv.id ∈ resultIdsAfter c j
        · exact Or.inl hmem
        · right
          apply List.mem_map.mpr
          refine ⟨inv, ?_, rfl⟩
          apply List.mem_filter.mpr
          exact ⟨hinv, by simp [hmem]⟩
      have hidem : repair (repair c)
          = repair c ++ (orphanInvocations (repair c)).map synthTurn := rfl
      rw [hidem, horph2]
      simp

/-- Witness for C7 at the scenario-E conversation: the last agent turn
has two invocations, one already matched; repair synthesizes exactly one
result (for the unmatched invocation), the repaired conversation is valid
to resume, and a second repair run is a no-op. -/
theorem c7_repair_guarantee_witness :
    brokenOnlyAtLast convE = true
    ∧ validToResume (repair convE) = true
    ∧ repair (repair convE) = repair convE
    ∧ synthesizedTurns convE = [.toolResult "b" "calculator" sentinelText] := by
  refine ⟨by decide, (c7_repair_guarantee convE (by decide)).1,
    (c7_repair_guarantee convE (by decide)).2.2, by decide⟩

end AgenticExec
